import Mathlib

/-!
Shallow embedding of `calc_checksum` from `src/pyHexDump/cmd_checksum.py`
(pyHexDump repository), together with theorems about the parameterized
CRC engine it implements.

Addresses, the polynomial and the seed are modelled as natural numbers
(the spec's data model declares them unsigned); bit-level behaviour is
made explicit with `% 2 ^ w`, `&&&`, `^^^` and `<<<`.  The memory image
is a byte-indexed view `Nat → Nat`; reads go through the modelled
`MemAccessU8` accessor, which truncates to one byte.
-/

namespace PyHexDump

/-- Modelled from the spec: the status type `Ret` lives in
`pyHexDump/constants.py`, which is not under src/.  `calc_checksum` uses
exactly two of its values: `Ret.OK` on success and
`Ret.ERROR_CRC_CACLULATION` (spelling as in the source) on both of its
early-return validation failures. -/
inductive Ret where
  | OK
  | ERROR_CRC_CACLULATION
  deriving DecidableEq

/-- Modelled from the spec: `MemAccessU8.get_size` from
`pyHexDump/mem_access.py` is not under src/; the spec fixes the access
word size of this engine at 1 byte. -/
def memAccessU8Size : Nat := 1

/-- Modelled from the spec: `MemAccessU8.get_value` from
`pyHexDump/mem_access.py` is not under src/; it reads the single byte
stored at `address` of the byte-indexed memory image. -/
def memAccessU8GetValue (binary_data : Nat → Nat) (address : Nat) : Nat :=
  binary_data address % 256

/-- Reversal of the low `width` bits of `value`: the embedding of the
Python idiom `int(f"{value:0<width>b}"[::-1], 2)` used by `calc_checksum`
for `reverse_input` (with width 8) and in its `reverse_output` branch
(with width `bit_width`); for `value < 2 ^ width` the format string has
exactly `width` binary digits, so reversing the string reverses the low
`width` bits. -/
def bitReflect : Nat → Nat → Nat
  | 0, _ => 0
  | width + 1, value => ((value &&& 1) <<< width) ||| bitReflect width (value >>> 1)

/-- One iteration of the inner `for _ in range(8)` loop of
`calc_checksum`: shift the register left by one and, when the bit
selected by `msb_mask` is set, xor in the widened polynomial. -/
def crcShiftBit (msb_mask polynomial crc : Nat) : Nat :=
  let crc := crc <<< 1
  if crc &&& msb_mask ≠ 0 then crc ^^^ polynomial else crc

/-- One iteration of the `while count > 0` loop of `calc_checksum`,
acting on the state `(crc, word, offset)`: read the byte at
`start_address + offset`, reflect it when `reverse_input` is set, xor it
into the top 8 bits of the register's active width, and run the eight
single-bit steps. -/
def crcStep (binary_data : Nat → Nat)
    (start_address bit_width msb_mask polynomial : Nat) (reverse_input : Bool)
    (s : Nat × Nat × Nat) : Nat × Nat × Nat :=
  let word := memAccessU8GetValue binary_data (start_address + s.2.2)
  let word := if reverse_input then bitReflect 8 word else word
  let crc := s.1 ^^^ (word <<< (bit_width - 8))
  let crc := (crcShiftBit msb_mask polynomial)^[8] crc
  (crc, word, s.2.2 + memAccessU8Size)

/-- Validation guards of `calc_checksum` (its two early returns), with
the access word size as an explicit parameter following the spec's
`validate(range, wordSize, registerWidth)` contract; `calc_checksum`
instantiates `word_size` with `memAccessU8Size`.  Note that both failing
guards of the source return the one status `Ret.ERROR_CRC_CACLULATION`. -/
def crcValidate (range_len word_size bit_width : Nat) : Ret :=
  if bit_width ≠ 8 ∧ bit_width ≠ 16 ∧ bit_width ≠ 32 then Ret.ERROR_CRC_CACLULATION
  else if range_len % word_size ≠ 0 then Ret.ERROR_CRC_CACLULATION
  else Ret.OK

/-- Shallow embedding of `calc_checksum` from
`src/pyHexDump/cmd_checksum.py`.  The returned pair is
`(status, checksum)`.  The `_word` binding mirrors the source's
`reverse_output` branch, which reassigns the local variable `word` and
never reads it again. -/
def calc_checksum (binary_data : Nat → Nat)
    (start_address end_address polynomial bit_width seed : Nat)
    (reverse_input reverse_output final_xor : Bool) : Ret × Nat :=
  let count := (end_address - start_address) / memAccessU8Size
  if bit_width ≠ 8 ∧ bit_width ≠ 16 ∧ bit_width ≠ 32 then
    (Ret.ERROR_CRC_CACLULATION, 0)
  else if (end_address - start_address) % memAccessU8Size ≠ 0 then
    (Ret.ERROR_CRC_CACLULATION, 0)
  else
    let bit_width_mask := 2 ^ bit_width - 1
    let msb_mask := 1 <<< bit_width
    let polynomial := (1 <<< bit_width) ||| polynomial
    let final :=
      (crcStep binary_data start_address bit_width msb_mask polynomial reverse_input)^[count]
        (seed, 0, 0)
    let crc := final.1 &&& bit_width_mask
    let _word := if reverse_output then bitReflect bit_width final.2.1 else final.2.1
    let crc := if final_xor then crc ^^^ bit_width_mask else crc
    (Ret.OK, crc)

/-- Register value produced by the main loop of `calc_checksum` after
the final mask `crc &= bit_width_mask` and before the optional final
xor; `count` is the number of loop iterations. -/
def crcRegister (binary_data : Nat → Nat)
    (start_address count polynomial bit_width seed : Nat)
    (reverse_input : Bool) : Nat :=
  ((crcStep binary_data start_address bit_width (1 <<< bit_width)
      ((1 <<< bit_width) ||| polynomial) reverse_input)^[count]
    (seed, 0, 0)).1 &&& (2 ^ bit_width - 1)

/-- Helper: a register width drawn from `{8, 16, 32}` falsifies the
width guard of `calc_checksum`. -/
theorem width_guard_false {bit_width : Nat}
    (h : bit_width = 8 ∨ bit_width = 16 ∨ bit_width = 32) :
    ¬(bit_width ≠ 8 ∧ bit_width ≠ 16 ∧ bit_width ≠ 32) := by
  rcases h with h | h | h <;> simp [h]

/-- Helper: with the 1-byte access word size, every range length passes
the alignment guard of `calc_checksum`. -/
theorem align_guard_false (n : Nat) : ¬(n % memAccessU8Size ≠ 0) := by
  simp [memAccessU8Size, Nat.mod_one]

/-- Helper: on a valid register width, `calc_checksum` reaches the main
loop and returns `Ret.OK` with the masked register, xored with the mask
when `final_xor` is set. -/
theorem calc_checksum_valid (binary_data : Nat → Nat)
    (start_address end_address polynomial bit_width seed : Nat)
    (reverse_input reverse_output final_xor : Bool)
    (h : bit_width = 8 ∨ bit_width = 16 ∨ bit_width = 32) :
    calc_checksum binary_data start_address end_address polynomial bit_width seed
        reverse_input reverse_output final_xor =
      (Ret.OK,
        if final_xor then
          crcRegister binary_data start_address
              ((end_address - start_address) / memAccessU8Size) polynomial bit_width seed
              reverse_input ^^^ (2 ^ bit_width - 1)
        else
          crcRegister binary_data start_address
              ((end_address - start_address) / memAccessU8Size) polynomial bit_width seed
              reverse_input) := by
  simp only [calc_checksum, crcRegister]
  rw [if_neg (width_guard_false h), if_neg (align_guard_false _)]

/-- Helper: two numbers agree modulo `2 ^ n` exactly when their low `n`
bits agree. -/
theorem mod_two_pow_eq_iff (a b n : Nat) :
    a % 2 ^ n = b % 2 ^ n ↔ ∀ i, i < n → a.testBit i = b.testBit i := by
  constructor
  · intro h i hi
    have h2 := congrArg (fun x => x.testBit i) h
    simpa [Nat.testBit_mod_two_pow, hi] using h2
  · intro h
    apply Nat.eq_of_testBit_eq
    intro i
    rw [Nat.testBit_mod_two_pow, Nat.testBit_mod_two_pow]
    by_cases hi : i < n
    · simp [hi, h i hi]
    · simp [hi]

/-- Helper: xoring a common value preserves agreement modulo `2 ^ n`. -/
theorem xor_mod_two_pow_congr {a b : Nat} (n x : Nat)
    (h : a % 2 ^ n = b % 2 ^ n) : (a ^^^ x) % 2 ^ n = (b ^^^ x) % 2 ^ n := by
  rw [mod_two_pow_eq_iff] at h ⊢
  intro i hi
  rw [Nat.testBit_xor, Nat.testBit_xor, h i hi]

/-- Helper: a single left shift preserves bitwise agreement below `n`. -/
theorem shiftLeft_one_testBit_congr {a b : Nat} (n : Nat)
    (h : ∀ i, i < n → a.testBit i = b.testBit i) :
    ∀ i, i < n → (a <<< 1).testBit i = (b <<< 1).testBit i := by
  intro i hi
  rw [Nat.testBit_shiftLeft, Nat.testBit_shiftLeft]
  rcases Nat.eq_zero_or_pos i with h0 | h1
  · simp [h0]
  · have hb := h (i - 1) (by omega)
    simp [hb]

/-- Helper: one single-bit step of the CRC loop preserves agreement of
the register modulo `2 ^ bit_width`; the guard only tests the bit that
was shifted out of the low `bit_width` bits, so two registers with equal
low bits take the same branch. -/
theorem crcShiftBit_congr (bit_width polynomial : Nat) (hw : 1 ≤ bit_width)
    {a b : Nat} (h : a % 2 ^ bit_width = b % 2 ^ bit_width) :
    crcShiftBit (1 <<< bit_width) polynomial a % 2 ^ bit_width =
      crcShiftBit (1 <<< bit_width) polynomial b % 2 ^ bit_width := by
  have hbit : ∀ i, i < bit_width → a.testBit i = b.testBit i :=
    (mod_two_pow_eq_iff a b bit_width).1 h
  have hshift := shiftLeft_one_testBit_congr bit_width hbit
  have hmsb : (a <<< 1).testBit bit_width = (b <<< 1).testBit bit_width := by
    rw [Nat.testBit_shiftLeft, Nat.testBit_shiftLeft]
    have hb := hbit (bit_width - 1) (by omega)
    simp [hb]
  have hcond : ((a <<< 1) &&& (1 <<< bit_width) ≠ 0) ↔
      ((b <<< 1) &&& (1 <<< bit_width) ≠ 0) := by
    rw [Nat.one_shiftLeft, Nat.and_two_pow, Nat.and_two_pow, hmsb]
  simp only [crcShiftBit]
  by_cases hc : (b <<< 1) &&& (1 <<< bit_width) ≠ 0
  · rw [if_pos (hcond.2 hc), if_pos hc]
    exact xor_mod_two_pow_congr bit_width polynomial
      ((mod_two_pow_eq_iff _ _ _).2 hshift)
  · rw [if_neg (fun hx => hc (hcond.1 hx)), if_neg hc]
    exact (mod_two_pow_eq_iff _ _ _).2 hshift

/-- Helper: iterating the single-bit step preserves agreement of the
register modulo `2 ^ bit_width`. -/
theorem crcShiftBit_iterate_congr (bit_width polynomial : Nat)
    (hw : 1 ≤ bit_width) (n : Nat) :
    ∀ {a b : Nat}, a % 2 ^ bit_width = b % 2 ^ bit_width →
      (crcShiftBit (1 <<< bit_width) polynomial)^[n] a % 2 ^ bit_width =
        (crcShiftBit (1 <<< bit_width) polynomial)^[n] b % 2 ^ bit_width := by
  induction n with
  | zero => intro a b h; simpa using h
  | succ n ih =>
    intro a b h
    rw [Function.iterate_succ_apply, Function.iterate_succ_apply]
    exact ih (crcShiftBit_congr bit_width polynomial hw h)

/-- Helper: iterating the per-byte loop step preserves agreement of the
register modulo `2 ^ bit_width` for states that share word and offset
components. -/
theorem crcStep_iterate_congr (binary_data : Nat → Nat)
    (start_address bit_width polynomial : Nat) (reverse_input : Bool)
    (hw : 1 ≤ bit_width) (n : Nat) :
    ∀ s₁ s₂ : Nat × Nat × Nat, s₁.1 % 2 ^ bit_width = s₂.1 % 2 ^ bit_width →
      s₁.2 = s₂.2 →
      ((crcStep binary_data start_address bit_width (1 <<< bit_width) polynomial
          reverse_input)^[n] s₁).1 % 2 ^ bit_width =
        ((crcStep binary_data start_address bit_width (1 <<< bit_width) polynomial
          reverse_input)^[n] s₂).1 % 2 ^ bit_width := by
  induction n with
  | zero => intro s₁ s₂ h _; simpa using h
  | succ n ih =>
    intro s₁ s₂ h h2
    rw [Function.iterate_succ_apply, Function.iterate_succ_apply]
    apply ih
    · simp only [crcStep, h2]
      exact crcShiftBit_iterate_congr bit_width polynomial hw 8
        (xor_mod_two_pow_congr bit_width _ h)
    · simp only [crcStep, h2]

/-- Claim C1: for every memory image, address range and configuration,
`calc_checksum` with `reverse_output = true` returns exactly the same
`(status, checksum)` pair as with `reverse_output = false`: the source's
`reverse_output` branch reflects the last processed input byte into the
local `word` and never applies it to the returned register. -/
theorem calc_checksum_reverse_output_noop (binary_data : Nat → Nat)
    (start_address end_address polynomial bit_width seed : Nat)
    (reverse_input final_xor : Bool) :
    calc_checksum binary_data start_address end_address polynomial bit_width seed
        reverse_input true final_xor =
      calc_checksum binary_data start_address end_address polynomial bit_width seed
        reverse_input false final_xor := rfl

/-- Claim C2 (Scenario B): for an image holding the single byte `0x01`
at address 0, `calc_checksum` over `[0, 1)` with polynomial `0x07`, bit
width 8, seed 0 and all flags false returns `Ret.OK` and checksum
`0x07`. -/
theorem calc_checksum_scenario_b :
    calc_checksum (fun a => if a = 0 then 1 else 0) 0 1 7 8 0 false false false =
      (Ret.OK, 7) := by decide

/-- Claim C3: with a valid bit width, the checksum returned with
`final_xor = true` equals the checksum returned with
`final_xor = false` xored with the all-ones mask `2 ^ bit_width - 1`. -/
theorem calc_checksum_final_xor_complement (binary_data : Nat → Nat)
    (start_address end_address polynomial bit_width seed : Nat)
    (reverse_input reverse_output : Bool)
    (h : bit_width = 8 ∨ bit_width = 16 ∨ bit_width = 32) :
    (calc_checksum binary_data start_address end_address polynomial bit_width seed
        reverse_input reverse_output true).2 =
      (calc_checksum binary_data start_address end_address polynomial bit_width seed
        reverse_input reverse_output false).2 ^^^ (2 ^ bit_width - 1) := by
  rw [calc_checksum_valid binary_data start_address end_address polynomial bit_width
        seed reverse_input reverse_output true h,
      calc_checksum_valid binary_data start_address end_address polynomial bit_width
        seed reverse_input reverse_output false h]
  simp

/-- Witness for claim C3 at a concrete configuration. -/
theorem calc_checksum_final_xor_complement_witness :
    (calc_checksum (fun _ => 0) 0 2 7 8 5 false false true).2 =
      (calc_checksum (fun _ => 0) 0 2 7 8 5 false false false).2 ^^^ (2 ^ 8 - 1) :=
  calc_checksum_final_xor_complement (fun _ => 0) 0 2 7 8 5 false false (Or.inl rfl)

/-- Claim C4: for every bit width outside `{8, 16, 32}`,
`calc_checksum` returns the error status with numeric result 0; the
returned pair is a constant independent of the memory image, so no byte
of the image is read. -/
theorem calc_checksum_invalid_width (binary_data : Nat → Nat)
    (start_address end_address polynomial bit_width seed : Nat)
    (reverse_input reverse_output final_xor : Bool)
    (h8 : bit_width ≠ 8) (h16 : bit_width ≠ 16) (h32 : bit_width ≠ 32) :
    calc_checksum binary_data start_address end_address polynomial bit_width seed
        reverse_input reverse_output final_xor =
      (Ret.ERROR_CRC_CACLULATION, 0) := by
  simp only [calc_checksum]
  rw [if_pos ⟨h8, h16, h32⟩]

/-- Witness for claim C4 at bit width 12. -/
theorem calc_checksum_invalid_width_witness :
    calc_checksum (fun _ => 0) 0 4 79764919 12 0 false false false =
      (Ret.ERROR_CRC_CACLULATION, 0) :=
  calc_checksum_invalid_width (fun _ => 0) 0 4 79764919 12 0 false false false
    (by decide) (by decide) (by decide)

/-- Claim C5: with a valid bit width, the checksum returned by
`calc_checksum` always lies in `[0, 2 ^ bit_width - 1]`: the register is
masked to `bit_width` bits before return and the optional final xor
preserves the bound. -/
theorem calc_checksum_result_in_range (binary_data : Nat → Nat)
    (start_address end_address polynomial bit_width seed : Nat)
    (reverse_input reverse_output final_xor : Bool)
    (h : bit_width = 8 ∨ bit_width = 16 ∨ bit_width = 32) :
    (calc_checksum binary_data start_address end_address polynomial bit_width seed
        reverse_input reverse_output final_xor).2 ≤ 2 ^ bit_width - 1 := by
  rw [calc_checksum_valid binary_data start_address end_address polynomial bit_width
        seed reverse_input reverse_output final_xor h]
  have h1 : crcRegister binary_data start_address
      ((end_address - start_address) / memAccessU8Size) polynomial bit_width seed
      reverse_input ≤ 2 ^ bit_width - 1 := by
    simp only [crcRegister]
    exact Nat.and_le_right
  have hpos : 0 < 2 ^ bit_width := Nat.pow_pos (by norm_num)
  cases final_xor with
  | false => simpa using h1
  | true =>
    have h2 : 2 ^ bit_width - 1 < 2 ^ bit_width := by omega
    have h3 := Nat.xor_lt_two_pow
      (by omega : crcRegister binary_data start_address
        ((end_address - start_address) / memAccessU8Size) polynomial bit_width seed
        reverse_input < 2 ^ bit_width) h2
    simpa using Nat.le_pred_of_lt h3

/-- Witness for claim C5 at a concrete configuration. -/
theorem calc_checksum_result_in_range_witness :
    (calc_checksum (fun a => a) 0 4 7 8 1000 true false true).2 ≤ 2 ^ 8 - 1 :=
  calc_checksum_result_in_range (fun a => a) 0 4 7 8 1000 true false true (Or.inl rfl)

/-- Claim C6 (Scenario C): for an image holding the single byte `0x80`
at address 0, `calc_checksum` over `[0, 1)` with polynomial `0x07`, bit
width 8, seed 0 and `reverse_input = true` returns `Ret.OK` and checksum
`0x07`, equal to Scenario B's result, because reflecting the 8 bits of
`0x80` yields `0x01`. -/
theorem calc_checksum_scenario_c :
    calc_checksum (fun a => if a = 0 then 128 else 0) 0 1 7 8 0 true false false =
        (Ret.OK, 7) ∧
      bitReflect 8 128 = 1 ∧
      calc_checksum (fun a => if a = 0 then 128 else 0) 0 1 7 8 0 true false false =
        calc_checksum (fun a => if a = 0 then 1 else 0) 0 1 7 8 0 false false false := by
  decide

/-- Claim C7, counterexample: the two validation failure modes are not
distinguishable from the returned error value.  An invalid register
width (12) and a misaligned range (length 3 against word size 2) both
yield the single status `Ret.ERROR_CRC_CACLULATION`, and the engine's
invalid-width error is that same value. -/
theorem crcValidate_error_values_collide :
    crcValidate 1 1 12 = Ret.ERROR_CRC_CACLULATION ∧
      crcValidate 3 2 8 = Ret.ERROR_CRC_CACLULATION ∧
      crcValidate 1 1 12 = crcValidate 3 2 8 ∧
      (calc_checksum (fun _ => 0) 0 1 0 12 0 false false false).1 =
        crcValidate 3 2 8 := by
  decide

/-- Claim C7 as amended: both validation failure modes return one and
the same error value `Ret.ERROR_CRC_CACLULATION`, so a caller cannot
tell them apart from the returned error alone. -/
theorem crcValidate_single_error_value (range_len word_size bit_width : Nat)
    (h : (bit_width ≠ 8 ∧ bit_width ≠ 16 ∧ bit_width ≠ 32) ∨
      range_len % word_size ≠ 0) :
    crcValidate range_len word_size bit_width = Ret.ERROR_CRC_CACLULATION := by
  simp only [crcValidate]
  by_cases h1 : bit_width ≠ 8 ∧ bit_width ≠ 16 ∧ bit_width ≠ 32
  · rw [if_pos h1]
  · rcases h with h | h
    · exact absurd h h1
    · rw [if_neg h1, if_pos h]

/-- Witness for the amended claim C7 on a misaligned range. -/
theorem crcValidate_single_error_value_witness :
    crcValidate 3 2 8 = Ret.ERROR_CRC_CACLULATION :=
  crcValidate_single_error_value 3 2 8 (Or.inr (by decide))

/-- Claim C8: with the fixed 1-byte access word size every range length
is aligned, so the misalignment guard of `calc_checksum` never fires:
whenever the bit width is valid the returned status is `Ret.OK`. -/
theorem calc_checksum_misaligned_branch_unreachable :
    (∀ start_address end_address : Nat,
        (end_address - start_address) % memAccessU8Size = 0) ∧
      ∀ (binary_data : Nat → Nat)
        (start_address end_address polynomial bit_width seed : Nat)
        (reverse_input reverse_output final_xor : Bool),
        bit_width = 8 ∨ bit_width = 16 ∨ bit_width = 32 →
        (calc_checksum binary_data start_address end_address polynomial bit_width seed
          reverse_input reverse_output final_xor).1 = Ret.OK := by
  constructor
  · intro s e
    simp [memAccessU8Size, Nat.mod_one]
  · intro binary_data s e p bw sd ri ro fx h
    rw [calc_checksum_valid binary_data s e p bw sd ri ro fx h]

/-- Witness for claim C8, also exercising a range with end before
start. -/
theorem calc_checksum_misaligned_branch_unreachable_witness :
    (7 - 3) % memAccessU8Size = 0 ∧
      (calc_checksum (fun _ => 0) 5 2 7 16 0 true true true).1 = Ret.OK :=
  ⟨calc_checksum_misaligned_branch_unreachable.1 3 7,
   calc_checksum_misaligned_branch_unreachable.2 (fun _ => 0) 5 2 7 16 0 true true true
     (Or.inr (Or.inl rfl))⟩

/-- Claim C9: on an empty range (`start_address = end_address`) with a
valid bit width, `calc_checksum` reads no byte (the result is
independent of the image) and returns `Ret.OK` with the seed masked to
`bit_width` bits, xored with the mask when `final_xor` is set; the
reflection flags have no effect. -/
theorem calc_checksum_empty_range (binary_data : Nat → Nat)
    (address polynomial bit_width seed : Nat)
    (reverse_input reverse_output final_xor : Bool)
    (h : bit_width = 8 ∨ bit_width = 16 ∨ bit_width = 32) :
    calc_checksum binary_data address address polynomial bit_width seed
        reverse_input reverse_output final_xor =
      (Ret.OK,
        if final_xor then
          (seed &&& (2 ^ bit_width - 1)) ^^^ (2 ^ bit_width - 1)
        else
          seed &&& (2 ^ bit_width - 1)) := by
  rw [calc_checksum_valid binary_data address address polynomial bit_width seed
        reverse_input reverse_output final_xor h]
  simp [crcRegister, Nat.sub_self]

/-- Witness for claim C9 at a concrete configuration. -/
theorem calc_checksum_empty_range_witness :
    calc_checksum (fun _ => 9) 4 4 7 16 43981 true true true =
      (Ret.OK,
        if true then (43981 &&& (2 ^ 16 - 1)) ^^^ (2 ^ 16 - 1)
        else 43981 &&& (2 ^ 16 - 1)) :=
  calc_checksum_empty_range (fun _ => 9) 4 7 16 43981 true true true
    (Or.inr (Or.inl rfl))

/-- Claim C10: with a valid bit width and a polynomial below
`2 ^ bit_width`, the result of `calc_checksum` depends on the seed only
through `seed % 2 ^ bit_width`: seed bits at or above the register
width only shift upward, never trigger the top-bit test, and are removed
by the final mask. -/
theorem calc_checksum_seed_mod_invariant (binary_data : Nat → Nat)
    (start_address end_address polynomial bit_width seed : Nat)
    (reverse_input reverse_output final_xor : Bool)
    (hbw : bit_width = 8 ∨ bit_width = 16 ∨ bit_width = 32)
    (hp : polynomial < 2 ^ bit_width) :
    calc_checksum binary_data start_address end_address polynomial bit_width seed
        reverse_input reverse_output final_xor =
      calc_checksum binary_data start_address end_address polynomial bit_width
        (seed % 2 ^ bit_width) reverse_input reverse_output final_xor := by
  have hw : 1 ≤ bit_width := by rcases hbw with h | h | h <;> omega
  have hreg : crcRegister binary_data start_address
      ((end_address - start_address) / memAccessU8Size) polynomial bit_width seed
      reverse_input =
      crcRegister binary_data start_address
        ((end_address - start_address) / memAccessU8Size) polynomial bit_width
        (seed % 2 ^ bit_width) reverse_input := by
    simp only [crcRegister, Nat.and_pow_two_sub_one_eq_mod]
    exact crcStep_iterate_congr binary_data start_address bit_width
      ((1 <<< bit_width) ||| polynomial) reverse_input hw _
      (seed, 0, 0) (seed % 2 ^ bit_width, 0, 0)
      (Nat.mod_mod_of_dvd seed dvd_rfl).symm rfl
  rw [calc_checksum_valid binary_data start_address end_address polynomial bit_width
        seed reverse_input reverse_output final_xor hbw,
      calc_checksum_valid binary_data start_address end_address polynomial bit_width
        (seed % 2 ^ bit_width) reverse_input reverse_output final_xor hbw, hreg]

/-- Witness for claim C10 at a concrete configuration with a seed above
the register width. -/
theorem calc_checksum_seed_mod_invariant_witness :
    calc_checksum (fun a => a) 0 3 7 8 1000 false false false =
      calc_checksum (fun a => a) 0 3 7 8 (1000 % 2 ^ 8) false false false :=
  calc_checksum_seed_mod_invariant (fun a => a) 0 3 7 8 1000 false false false
    (Or.inl rfl) (by norm_num)

end PyHexDump
